import Mathlib

/-!
Verification development for a console library-management system
(files operations.py, auth.py, database.py of the repository).
The Python operations are shallowly embedded as pure Lean functions over an
explicit database state (tables books, loans, users).  User input already
collected by the prompt helpers is passed as ordinary arguments; the query
collaborator (execute_query) is modelled as the direct state update it
performs on success, and as the identity on the state when it fails
(a failed commit is rolled back before signalling failure).
-/

namespace LibSys

/-! Python string helpers.  pyStrip models str.strip (drop whitespace at both
ends), pySplit models str.split with a one-character separator (n separators
give n+1 fields, empty fields kept), pyLower models str.lower restricted to
ASCII, which is all the repository ever feeds it. -/

def pyStrip (s : String) : String :=
  ⟨((s.data.dropWhile Char.isWhitespace).reverse.dropWhile Char.isWhitespace).reverse⟩

def pySplitAux (sep : Char) : List Char → List (List Char)
  | [] => [[]]
  | c :: rest =>
    match pySplitAux sep rest with
    | [] => if c = sep then [[], []] else [[c]]
    | h :: t => if c = sep then [] :: h :: t else (c :: h) :: t

def pySplit (s : String) (sep : Char) : List String :=
  (pySplitAux sep s.data).map (fun cs => ⟨cs⟩)

def pyCharLower (c : Char) : Char :=
  if 'A' ≤ c ∧ c ≤ 'Z' then Char.ofNat (c.toNat + 32) else c

def pyLower (s : String) : String :=
  ⟨s.data.map pyCharLower⟩

/-! Rows of the three tables, and the session descriptor produced by
login_user in auth.py. -/

structure Book where
  book_id : Nat
  title : String
  author : String
  isbn : String
  quantity : Int
  available_quantity : Int
deriving DecidableEq, Repr

structure Loan where
  loan_id : Nat
  user_id : Nat
  book_id : Nat
  loan_date : Nat
  due_date : Nat
  return_date : Option Nat
deriving DecidableEq, Repr

structure User where
  user_id : Nat
  username : String
  role : String
  phone : Option String
  permissions : String
deriving DecidableEq, Repr

structure Session where
  user_id : Nat
  username : String
  role : String
  permissions : Option String
deriving DecidableEq, Repr

/-- Database state: the three tables plus the auto-increment counters the
store assigns to new loan and user rows. -/
structure State where
  books : List Book
  loans : List Loan
  users : List User
  nextLoanId : Nat
  nextUserId : Nat
deriving DecidableEq, Repr

/-- has_permission (operations.py lines 9-15): a None or empty permission
string yields False; otherwise the capability must be one of the
comma-separated, stripped tokens. -/
def has_permission (user_permissions : Option String) (required_permission : String) : Bool :=
  match user_permissions with
  | none => false
  | some s =>
    if s = "" then false
    else ((pySplit s ',').map pyStrip).contains required_permission

/-- The permission gate every admin operation opens with:
role != superadmin and not has_permission(...) means denied, so the call is
allowed exactly when the role is superadmin or has_permission holds. -/
def permissionGate (sessionRole : String) (sessionPerms : Option String)
    (cap : String) : Bool :=
  sessionRole == "superadmin" || has_permission sessionPerms cap

/-- SELECT ... FROM books WHERE book_id = x with fetch_one: first matching
row. -/
def findBook (bid : Nat) (books : List Book) : Option Book :=
  books.find? (fun b => b.book_id == bid)

/-- SELECT loan_id FROM loans WHERE user_id = u AND book_id = b AND
return_date IS NULL, read as a Boolean existence check. -/
def hasActiveLoan (uid bid : Nat) (loans : List Loan) : Bool :=
  loans.any (fun l => l.user_id == uid && l.book_id == bid && l.return_date.isNone)

/-- UPDATE books SET available_quantity = available_quantity - 1 WHERE
book_id = x AND available_quantity > 0. -/
def decrementAvail (bid : Nat) (books : List Book) : List Book :=
  books.map (fun b =>
    if b.book_id = bid ∧ 0 < b.available_quantity then
      { b with available_quantity := b.available_quantity - 1 }
    else b)

/-- UPDATE books SET available_quantity = available_quantity + 1 WHERE
book_id = x. -/
def incrementAvail (bid : Nat) (books : List Book) : List Book :=
  books.map (fun b =>
    if b.book_id = bid then
      { b with available_quantity := b.available_quantity + 1 }
    else b)

inductive BorrowResult where
  | notFound
  | unavailable
  | conflict
  | insertFailed
  | success (loan_id : Nat)
deriving DecidableEq, Repr

/-- borrow_book (operations.py lines 283-340), after the book id has been
read.  The loan INSERT is committed first and returns lastrowid; the truthy
check on loan_id in the source becomes a nonzero check, and only then is the
availability decrement issued. -/
def borrow_book (today uid bid : Nat) (st : State) : BorrowResult × State :=
  match findBook bid st.books with
  | none => (.notFound, st)
  | some book =>
    if book.available_quantity ≤ 0 then (.unavailable, st)
    else if hasActiveLoan uid bid st.loans then (.conflict, st)
    else
      let loan_date := today
      let due_date := loan_date + 14
      let loan_id := st.nextLoanId
      let st1 : State :=
        { st with
          loans := st.loans ++ [⟨loan_id, uid, bid, loan_date, due_date, none⟩],
          nextLoanId := st.nextLoanId + 1 }
      if loan_id ≠ 0 then
        (.success loan_id, { st1 with books := decrementAvail bid st1.books })
      else (.insertFailed, st1)

/-- SELECT loan_id, book_id FROM loans WHERE loan_id = l AND user_id = u AND
return_date IS NULL with fetch_one. -/
def findActiveLoan (lid uid : Nat) (loans : List Loan) : Option Loan :=
  loans.find? (fun l => l.loan_id == lid && l.user_id == uid && l.return_date.isNone)

/-- UPDATE loans SET return_date = today WHERE loan_id = l. -/
def closeLoan (today lid : Nat) (loans : List Loan) : List Loan :=
  loans.map (fun l =>
    if l.loan_id = lid then { l with return_date := some today } else l)

inductive ReturnResult where
  | notFound
  | success
deriving DecidableEq, Repr

/-- return_book (operations.py lines 343-384), after the loan id has been
read, with both UPDATE commits succeeding. -/
def return_book (today uid lid : Nat) (st : State) : ReturnResult × State :=
  match findActiveLoan lid uid st.loans with
  | none => (.notFound, st)
  | some loan =>
    let st1 : State := { st with loans := closeLoan today lid st.loans }
    (.success, { st1 with books := incrementAvail loan.book_id st1.books })

/-- return_book with the outcome of the loan-closing UPDATE made explicit.
When closeSucceeds is false that commit fails: execute_query rolls the write
back and returns None, leaving the loans table untouched.  The source never
inspects rows_affected_loan, so it proceeds to the availability increment
either way (operations.py lines 373-384). -/
def return_book_queryFail (closeSucceeds : Bool) (today uid lid : Nat)
    (st : State) : ReturnResult × State :=
  match findActiveLoan lid uid st.loans with
  | none => (.notFound, st)
  | some loan =>
    let st1 : State :=
      if closeSucceeds then { st with loans := closeLoan today lid st.loans } else st
    (.success, { st1 with books := incrementAvail loan.book_id st1.books })

inductive AddBookResult where
  | invalidQuantity
  | duplicate
  | success
deriving DecidableEq, Repr

/-- add_book (operations.py lines 21-67), after input collection and the
permission gate: positive quantity required, a (title, author) duplicate is
rejected, and the new row starts with available_quantity = quantity.  The
store assigns the new book id. -/
def add_book_core (title author isbn : String) (quantity : Int) (newBookId : Nat)
    (st : State) : AddBookResult × State :=
  if quantity ≤ 0 then (.invalidQuantity, st)
  else
    match st.books.find? (fun b => b.title == title && b.author == author) with
    | some _ => (.duplicate, st)
    | none =>
      (.success,
        { st with books := st.books ++ [⟨newBookId, title, author, isbn, quantity, quantity⟩] })

inductive UpdateBookResult where
  | notFound
  | negativeQuantity
  | invalidState
  | updated
  | cancelled
deriving DecidableEq, Repr

/-- update_book (operations.py lines 70-170), after input collection and the
permission gate.  An Option none input means the field was left blank and
the current value is kept (for the quantity this also covers the
unparsable-input path, which keeps the original).  A negative new quantity
is rejected; the quantity delta is applied to available_quantity, rejected
with the invalid-state error if negative, clamped to the new total
otherwise; the row is written only after confirmation. -/
def update_book_core (bid : Nat) (titleOpt authorOpt isbnOpt : Option String)
    (quantityOpt : Option Int) (confirmed : Bool) (st : State) :
    UpdateBookResult × State :=
  match findBook bid st.books with
  | none => (.notFound, st)
  | some current_book =>
    if (match quantityOpt with | some q => decide (q < 0) | none => false) then
      (.negativeQuantity, st)
    else
      let title := titleOpt.getD current_book.title
      let author := authorOpt.getD current_book.author
      let isbn := isbnOpt.getD current_book.isbn
      let new_quantity := quantityOpt.getD current_book.quantity
      let quantity_change := new_quantity - current_book.quantity
      let new_available_quantity := current_book.available_quantity + quantity_change
      if new_available_quantity < 0 then (.invalidState, st)
      else
        let new_available_quantity :=
          if new_available_quantity > new_quantity then new_quantity
          else new_available_quantity
        if confirmed then
          (.updated,
            { st with books := st.books.map (fun b =>
                if b.book_id = bid then
                  { b with title := title, author := author, isbn := isbn,
                           quantity := new_quantity,
                           available_quantity := new_available_quantity }
                else b) })
        else (.cancelled, st)

inductive DeleteBookResult where
  | notFound
  | conflictLoans
  | deleted
  | cancelled
deriving DecidableEq, Repr

/-- delete_book (operations.py lines 173-224), after input collection and the
permission gate: missing book, then the active-loan guard
available_quantity < quantity, then confirmation, then DELETE by book_id. -/
def delete_book_core (bid : Nat) (confirmed : Bool) (st : State) :
    DeleteBookResult × State :=
  match findBook bid st.books with
  | none => (.notFound, st)
  | some book =>
    if book.available_quantity < book.quantity then (.conflictLoans, st)
    else if confirmed then
      (.deleted, { st with books := st.books.filter (fun b => !(b.book_id == bid)) })
    else (.cancelled, st)

/-- register_user (auth.py lines 20-53): empty username or password rejected,
role must be reader, admin or superadmin, the username-uniqueness constraint
of the store makes the INSERT fail on a duplicate, and the new row gets an
empty permission string. -/
def register_user (username password role : String) (phone : Option String)
    (st : State) : Bool × State :=
  if username == "" || password == "" then (false, st)
  else if !(["reader", "admin", "superadmin"].contains role) then (false, st)
  else if st.users.any (fun u => u.username == username) then (false, st)
  else
    (true,
      { st with
        users := st.users ++ [⟨st.nextUserId, username, role, phone, ""⟩],
        nextUserId := st.nextUserId + 1 })

inductive AddUserResult where
  | permissionDenied
  | superadminOnlySuperadmin
  | superadminOnlyAdmin
  | invalidRole
  | registered
  | registerFailed
deriving DecidableEq, Repr

/-- add_user (operations.py lines 476-513): permission gate, the role input
lowered, the two only-superadmin guards, then the membership check against
the list containing exactly reader and admin, then register_user. -/
def add_user_op (actor : Session) (username password role_input : String)
    (phone : Option String) (st : State) : AddUserResult × State :=
  if actor.role != "superadmin" && !(has_permission actor.permissions "add_user") then
    (.permissionDenied, st)
  else
    let role := pyLower role_input
    if role == "superadmin" && actor.role != "superadmin" then
      (.superadminOnlySuperadmin, st)
    else if role == "admin" && actor.role != "superadmin" then
      (.superadminOnlyAdmin, st)
    else if !(["reader", "admin"].contains role) then (.invalidRole, st)
    else
      match register_user username password role phone st with
      | (true, st1) => (.registered, st1)
      | (false, st1) => (.registerFailed, st1)

inductive DeleteUserResult where
  | permissionDenied
  | notFound
  | hierarchyDenied
  | selfDenied
  | activeLoanConflict
  | deleted
  | cancelled
deriving DecidableEq, Repr

/-- delete_user (operations.py lines 676-741).  The target row is fetched
with SELECT username, role only, so the fetched mapping has no user_id key:
the self-deletion guard compares target_user.get, which is None, against the
session user id.  That None is embedded literally as the fetchedUserId
below. -/
def delete_user_op (actor : Session) (target_id : Nat) (confirmed : Bool)
    (st : State) : DeleteUserResult × State :=
  if actor.role != "superadmin" && !(has_permission actor.permissions "delete_user") then
    (.permissionDenied, st)
  else
    match st.users.find? (fun u => u.user_id == target_id) with
    | none => (.notFound, st)
    | some target =>
      let fetchedUserId : Option Nat := none
      if (target.role == "superadmin" || target.role == "admin")
          && actor.role != "superadmin" then
        (.hierarchyDenied, st)
      else if fetchedUserId == some actor.user_id then (.selfDenied, st)
      else if st.loans.any (fun l => l.user_id == target_id && l.return_date.isNone) then
        (.activeLoanConflict, st)
      else if confirmed then
        (.deleted, { st with users := st.users.filter (fun u => !(u.user_id == target_id)) })
      else (.cancelled, st)

inductive UpdateUserResult where
  | permissionDenied
  | notFound
  | hierarchyDenied
  | selfDenied
  | invalidRole
  | superadminRoleDenied
  | roleChangeDenied
  | cancelled
  | updated
  | updateCancelled
deriving DecidableEq, Repr

/-- update_user (operations.py lines 547-673), after input collection.
username_input empty models a blank answer (and the or-fallback of the
source then substitutes the SESSION username, current_user, not the target
row); role_input empty means blank or cancelled, both falsy, keeping the
target role; phone_input none means cancelled, some p (possibly empty)
means entered. -/
def update_user_op (actor : Session) (target_id : Nat) (username_input : String)
    (role_input : String) (phone_input : Option String) (confirmed : Bool)
    (st : State) : UpdateUserResult × State :=
  if actor.role != "superadmin" && !(has_permission actor.permissions "update_user") then
    (.permissionDenied, st)
  else
    match st.users.find? (fun u => u.user_id == target_id) with
    | none => (.notFound, st)
    | some target =>
      if (target.role == "superadmin" || target.role == "admin")
          && actor.role != "superadmin" then
        (.hierarchyDenied, st)
      else if target.user_id == actor.user_id && actor.role != "superadmin" then
        (.selfDenied, st)
      else
        let username := if username_input == "" then actor.username else username_input
        let roleStep : UpdateUserResult ⊕ String :=
          if actor.role == "superadmin" then
            if role_input != "" then
              let nr := pyLower role_input
              if !(["reader", "admin"].contains nr) then .inl .invalidRole
              else if nr == "superadmin" then .inl .superadminRoleDenied
              else .inr nr
            else .inr target.role
          else if target.role != "reader" then .inl .roleChangeDenied
          else .inr target.role
        match roleStep with
        | .inl e => (e, st)
        | .inr new_role =>
          let new_permissions :=
            if new_role == "reader" && target.role != "reader" then ""
            else target.permissions
          match phone_input with
          | none => (.cancelled, st)
          | some ph =>
            let new_phone := some ph
            if confirmed then
              (.updated,
                { st with users := st.users.map (fun u =>
                    if u.user_id = target_id then
                      { u with username := username, role := new_role,
                               phone := new_phone, permissions := new_permissions }
                    else u) })
            else (.updateCancelled, st)

/-- The book invariant of the specification: every row keeps
0 ≤ available_quantity ≤ quantity. -/
def BookInv (st : State) : Prop :=
  ∀ b ∈ st.books, 0 ≤ b.available_quantity ∧ b.available_quantity ≤ b.quantity

instance (st : State) : Decidable (BookInv st) :=
  List.decidableBAll _ st.books

/-- Some active loan references the given book. -/
def bookHasActiveLoan (bid : Nat) (loans : List Loan) : Bool :=
  loans.any (fun l => l.book_id == bid && l.return_date.isNone)

/-- One borrow followed by the return of the loan it created. -/
def roundtrip (today uid bid : Nat) (st : State) : State :=
  match borrow_book today uid bid st with
  | (.success lid, st1) => (return_book today uid lid st1).2
  | (_, st1) => st1

/-- All the conditions under which one borrow-return round trip goes through
and can be repeated: the book is on file with a copy available, the user
holds no active loan on it, every stored loan id is below the auto-increment
counter, the counter is nonzero (auto-increment ids start at 1), and the
book id is not duplicated. -/
def RoundtripReady (uid bid : Nat) (b : Book) (st : State) : Prop :=
  findBook bid st.books = some b ∧
  0 < b.available_quantity ∧
  hasActiveLoan uid bid st.loans = false ∧
  (∀ l ∈ st.loans, l.loan_id < st.nextLoanId) ∧
  st.nextLoanId ≠ 0 ∧
  (∀ b2 ∈ st.books, b2.book_id = bid → b2 = b)

/-! Generic lemmas about find? after a row-wise UPDATE (a map whose function
keeps the searched key) or a DELETE (a filter). -/

theorem find_map_idpres {α : Type} (q : α → Bool) (f : α → α)
    (hq : ∀ x, q (f x) = q x) (l : List α) :
    (l.map f).find? q = (l.find? q).map f := by
  induction l with
  | nil => rfl
  | cons x xs ih =>
    cases hx : q x with
    | true =>
      rw [List.map_cons, List.find?_cons_of_pos _ (by rw [hq, hx]),
        List.find?_cons_of_pos _ hx, Option.map_some']
    | false =>
      rw [List.map_cons, List.find?_cons_of_neg _ (by rw [hq, hx]; exact Bool.false_ne_true),
        List.find?_cons_of_neg _ (by rw [hx]; exact Bool.false_ne_true), ih]

theorem find_map_untouched {α : Type} (q : α → Bool) (f : α → α)
    (hq : ∀ x, q (f x) = q x) (hid : ∀ x, q x = true → f x = x) (l : List α) :
    (l.map f).find? q = l.find? q := by
  rw [find_map_idpres q f hq]
  cases h : l.find? q with
  | none => rfl
  | some a => rw [Option.map_some', hid a (List.find?_some h)]

theorem find_filter_none {α : Type} (q p : α → Bool)
    (h : ∀ x, p x = true → q x = false) (l : List α) :
    (l.filter p).find? q = none := by
  induction l with
  | nil => rfl
  | cons x xs ih =>
    cases hx : p x with
    | true =>
      rw [List.filter_cons_of_pos hx,
        List.find?_cons_of_neg _ (by rw [h x hx]; exact Bool.false_ne_true), ih]
    | false => rw [List.filter_cons_of_neg (by rw [hx]; exact Bool.false_ne_true), ih]

theorem find_filter_same {α : Type} (q p : α → Bool)
    (h : ∀ x, p x = false → q x = false) (l : List α) :
    (l.filter p).find? q = l.find? q := by
  induction l with
  | nil => rfl
  | cons x xs ih =>
    cases hx : p x with
    | true =>
      cases hqx : q x with
      | true =>
        rw [List.filter_cons_of_pos hx, List.find?_cons_of_pos _ hqx,
          List.find?_cons_of_pos _ hqx]
      | false =>
        rw [List.filter_cons_of_pos hx,
          List.find?_cons_of_neg _ (by rw [hqx]; exact Bool.false_ne_true),
          List.find?_cons_of_neg _ (by rw [hqx]; exact Bool.false_ne_true), ih]
    | false =>
      rw [List.filter_cons_of_neg (by rw [hx]; exact Bool.false_ne_true),
        List.find?_cons_of_neg _ (by rw [h x hx]; exact Bool.false_ne_true), ih]

/-- C2: the permission gate answers true unconditionally for a superadmin
session; for an admin session it answers true exactly when the capability is
one of the comma-separated, trimmed tokens of the permission string; a
missing or empty permission string denies every capability; in particular an
admin whose list is exactly add_book passes the add_book gate and fails the
update_book gate, while a superadmin passes both regardless of list. -/
theorem has_capability_spec :
    (∀ (perms : Option String) (cap : String),
      permissionGate "superadmin" perms cap = true) ∧
    (∀ (s cap : String), s ≠ "" →
      (permissionGate "admin" (some s) cap = true ↔
        cap ∈ (pySplit s ',').map pyStrip)) ∧
    (∀ cap : String, permissionGate "admin" none cap = false) ∧
    (∀ cap : String, permissionGate "admin" (some "") cap = false) ∧
    (permissionGate "admin" (some "add_book") "add_book" = true ∧
      permissionGate "admin" (some "add_book") "update_book" = false) ∧
    (∀ perms : Option String,
      permissionGate "superadmin" perms "add_book" = true ∧
      permissionGate "superadmin" perms "update_book" = true) := by
  refine ⟨?_, ?_, ?_, ?_, ⟨by decide, by decide⟩, ?_⟩
  · intro perms cap
    simp [permissionGate]
  · intro s cap h
    simp [permissionGate, has_permission, if_neg h, List.contains, List.elem_eq_mem]
  · intro cap
    simp [permissionGate, has_permission]
  · intro cap
    simp [permissionGate, has_permission]
  · intro perms
    exact ⟨by simp [permissionGate], by simp [permissionGate]⟩

/-- C2 witness: the admin branch of the gate applied to a concrete nonempty
permission list. -/
theorem has_capability_spec_witness :
    permissionGate "admin" (some " add_book , view_reports") "view_reports" = true := by
  exact (has_capability_spec.2.1 " add_book , view_reports" "view_reports"
    (by decide)).mpr (by decide)

theorem findBook_decrement_self (bid : Nat) (bs : List Book) (b : Book)
    (hb : findBook bid bs = some b) (ha : 0 < b.available_quantity) :
    findBook bid (decrementAvail bid bs) =
      some { b with available_quantity := b.available_quantity - 1 } := by
  have hq : ∀ x : Book,
      (((if x.book_id = bid ∧ 0 < x.available_quantity then
          { x with available_quantity := x.available_quantity - 1 } else x).book_id : Nat) == bid)
        = ((x.book_id : Nat) == bid) := by
    intro x
    by_cases hx : x.book_id = bid ∧ 0 < x.available_quantity
    · rw [if_pos hx]
    · rw [if_neg hx]
  have hbid : b.book_id = bid := by
    have := List.find?_some hb
    simpa using this
  simp only [findBook, decrementAvail] at hb ⊢
  rw [find_map_idpres _ _ hq, hb, Option.map_some', if_pos ⟨hbid, ha⟩]

theorem findBook_decrement_ne (bid bid2 : Nat) (h : bid2 ≠ bid) (bs : List Book) :
    findBook bid2 (decrementAvail bid bs) = findBook bid2 bs := by
  simp only [findBook, decrementAvail]
  apply find_map_untouched
  · intro x
    by_cases hx : x.book_id = bid ∧ 0 < x.available_quantity
    · rw [if_pos hx]
    · rw [if_neg hx]
  · intro x hxq
    have hx2 : x.book_id = bid2 := by simpa using hxq
    rw [if_neg (by rw [hx2]; exact fun hc => h hc.1)]

/-- C1: borrow fails with not-found when the book is absent, with unavailable
when its available quantity is zero, with conflict when the user already has
an open loan on it, each without touching the state; otherwise it inserts a
loan dated today and due in 14 days, decrements the availability of exactly
that book by one leaving its total quantity and all other books unchanged,
and leaves the users table alone. -/
theorem borrow_book_spec (today uid bid : Nat) (st : State) :
    (findBook bid st.books = none → borrow_book today uid bid st = (.notFound, st)) ∧
    (∀ b, findBook bid st.books = some b → b.available_quantity = 0 →
      borrow_book today uid bid st = (.unavailable, st)) ∧
    (∀ b, findBook bid st.books = some b → 0 < b.available_quantity →
      hasActiveLoan uid bid st.loans = true →
      borrow_book today uid bid st = (.conflict, st)) ∧
    (∀ b, findBook bid st.books = some b → 0 < b.available_quantity →
      hasActiveLoan uid bid st.loans = false → st.nextLoanId ≠ 0 →
      (borrow_book today uid bid st).1 = .success st.nextLoanId ∧
      (borrow_book today uid bid st).2.loans =
        st.loans ++ [⟨st.nextLoanId, uid, bid, today, today + 14, none⟩] ∧
      findBook bid (borrow_book today uid bid st).2.books =
        some { b with available_quantity := b.available_quantity - 1 } ∧
      (∀ bid2, bid2 ≠ bid →
        findBook bid2 (borrow_book today uid bid st).2.books = findBook bid2 st.books) ∧
      (borrow_book today uid bid st).2.users = st.users) := by
  refine ⟨?_, ?_, ?_, ?_⟩
  · intro h
    simp [borrow_book, h]
  · intro b hb h0
    simp [borrow_book, hb, h0]
  · intro b hb hpos hact
    have hne : ¬ b.available_quantity ≤ 0 := by omega
    simp [borrow_book, hb, hne, hact]
  · intro b hb hpos hact hnz
    have hne : ¬ b.available_quantity ≤ 0 := by omega
    have key : borrow_book today uid bid st =
        (.success st.nextLoanId,
          { books := decrementAvail bid st.books,
            loans := st.loans ++ [⟨st.nextLoanId, uid, bid, today, today + 14, none⟩],
            users := st.users,
            nextLoanId := st.nextLoanId + 1,
            nextUserId := st.nextUserId }) := by
      simp [borrow_book, hb, hne, hact, hnz]
    rw [key]
    refine ⟨rfl, rfl, ?_, ?_, rfl⟩
    · exact findBook_decrement_self bid st.books b hb hpos
    · intro bid2 h2
      exact findBook_decrement_ne bid bid2 h2 st.books

/-- C1 witness: a concrete successful borrow on a two-copy book. -/
theorem borrow_book_spec_witness :
    (borrow_book 0 7 1 ⟨[⟨1, "Dune", "Herbert", "", 2, 2⟩], [], [], 1, 1⟩).1 = .success 1 ∧
    findBook 1 (borrow_book 0 7 1 ⟨[⟨1, "Dune", "Herbert", "", 2, 2⟩], [], [], 1, 1⟩).2.books =
      some ⟨1, "Dune", "Herbert", "", 2, 1⟩ := by
  have h := (borrow_book_spec 0 7 1 ⟨[⟨1, "Dune", "Herbert", "", 2, 2⟩], [], [], 1, 1⟩).2.2.2
    ⟨1, "Dune", "Herbert", "", 2, 2⟩ (by decide) (by decide) (by decide) (by decide)
  exact ⟨h.1, h.2.2.1⟩

/-- C6: update_book recomputes the availability as the old availability plus
the quantity delta, refuses with the invalid-state error (and no mutation)
when that would be negative, and otherwise stores the recomputed value
clamped to the new total, so the stored availability never exceeds the new
total; other books are untouched. -/
theorem update_book_quantity_spec (bid : Nat) (newq : Int) (st : State) (b : Book)
    (hb : findBook bid st.books = some b) (hq : 0 ≤ newq) :
    (b.available_quantity + (newq - b.quantity) < 0 →
      update_book_core bid none none none (some newq) true st = (.invalidState, st)) ∧
    (0 ≤ b.available_quantity + (newq - b.quantity) →
      (update_book_core bid none none none (some newq) true st).1 = .updated ∧
      findBook bid (update_book_core bid none none none (some newq) true st).2.books =
        some { b with quantity := newq,
                      available_quantity :=
                        min (b.available_quantity + (newq - b.quantity)) newq } ∧
      min (b.available_quantity + (newq - b.quantity)) newq ≤ newq ∧
      (∀ bid2, bid2 ≠ bid →
        findBook bid2 (update_book_core bid none none none (some newq) true st).2.books =
          findBook bid2 st.books)) := by
  have hnegq : ¬ (newq < 0) := by omega
  constructor
  · intro hna
    simp [update_book_core, hb, hnegq, hna]
  · intro hna
    have hnlt : ¬ (b.available_quantity + (newq - b.quantity) < 0) := by omega
    have hclamp : (if b.available_quantity + (newq - b.quantity) > newq then newq
        else b.available_quantity + (newq - b.quantity)) =
        min (b.available_quantity + (newq - b.quantity)) newq := by
      rcases le_or_lt (b.available_quantity + (newq - b.quantity)) newq with h | h
      · rw [if_neg (by omega), min_eq_left h]
      · rw [if_pos h, min_eq_right (le_of_lt h)]
    have hbid : b.book_id = bid := by
      have := List.find?_some hb
      simpa using this
    have key : update_book_core bid none none none (some newq) true st =
        (.updated, { st with books := st.books.map (fun x =>
          if x.book_id = bid then
            { x with title := b.title, author := b.author, isbn := b.isbn,
                     quantity := newq,
                     available_quantity :=
                       if b.available_quantity + (newq - b.quantity) > newq then newq
                       else b.available_quantity + (newq - b.quantity) }
          else x) }) := by
      simp [update_book_core, hb, hnegq, hnlt]
    rw [key]
    have hqpres : ∀ x : Book,
        (((if x.book_id = bid then
            { x with title := b.title, author := b.author, isbn := b.isbn,
                     quantity := newq,
                     available_quantity :=
                       if b.available_quantity + (newq - b.quantity) > newq then newq
                       else b.available_quantity + (newq - b.quantity) }
          else x).book_id : Nat) == bid) = ((x.book_id : Nat) == bid) := by
      intro x
      by_cases hx : x.book_id = bid
      · rw [if_pos hx]
      · rw [if_neg hx]
    refine ⟨rfl, ?_, min_le_right _ _, ?_⟩
    · simp only [findBook] at hb ⊢
      rw [find_map_idpres _ _ hqpres, hb, Option.map_some', if_pos hbid, hclamp]
    · intro bid2 h2
      simp only [findBook]
      apply find_map_untouched
      · intro x
        by_cases hx : x.book_id = bid
        · rw [if_pos hx]
        · rw [if_neg hx]
      · intro x hxq
        have hx2 : x.book_id = bid2 := by simpa using hxq
        rw [if_neg (by rw [hx2]; exact h2)]

/-- C6 witness: growing a five-copy book with three copies loaned out to ten
total copies moves the availability from 2 to 7. -/
theorem update_book_quantity_spec_witness :
    (update_book_core 1 none none none (some 10) true
      ⟨[⟨1, "A", "B", "", 5, 2⟩], [], [], 1, 1⟩).1 = .updated ∧
    findBook 1 (update_book_core 1 none none none (some 10) true
      ⟨[⟨1, "A", "B", "", 5, 2⟩], [], [], 1, 1⟩).2.books = some ⟨1, "A", "B", "", 10, 7⟩ := by
  have h := (update_book_quantity_spec 1 10 ⟨[⟨1, "A", "B", "", 5, 2⟩], [], [], 1, 1⟩
    ⟨1, "A", "B", "", 5, 2⟩ (by decide) (by decide)).2 (by decide)
  refine ⟨h.1, ?_⟩
  rw [h.2.1]
  norm_num

/-- C7: deleting a book with fewer available than total copies fails with the
active-loans conflict and mutates nothing; deleting a confirmed book whose
copies are all back removes exactly that book row and nothing else. -/
theorem delete_book_spec (bid : Nat) (st : State) (b : Book) (confirmed : Bool)
    (hb : findBook bid st.books = some b) :
    (b.available_quantity < b.quantity →
      delete_book_core bid confirmed st = (.conflictLoans, st)) ∧
    (b.available_quantity = b.quantity →
      (delete_book_core bid true st).1 = .deleted ∧
      findBook bid (delete_book_core bid true st).2.books = none ∧
      (∀ bid2, bid2 ≠ bid →
        findBook bid2 (delete_book_core bid true st).2.books = findBook bid2 st.books) ∧
      (delete_book_core bid true st).2.loans = st.loans ∧
      (delete_book_core bid true st).2.users = st.users) := by
  constructor
  · intro hlt
    simp [delete_book_core, hb, hlt]
  · intro heq
    have hnlt : ¬ (b.available_quantity < b.quantity) := by omega
    have key : delete_book_core bid true st =
        (.deleted, { st with books := st.books.filter (fun x => !(x.book_id == bid)) }) := by
      simp [delete_book_core, hb, hnlt]
    rw [key]
    refine ⟨rfl, ?_, ?_, rfl, rfl⟩
    · simp only [findBook]
      apply find_filter_none
      intro x hx
      rcases Bool.not_eq_true' .. |>.mp hx with h
      exact h
    · intro bid2 h2
      simp only [findBook]
      apply find_filter_same
      intro x hx
      have hxbid : x.book_id = bid := by
        have : (x.book_id == bid) = true := by
          cases hc : (x.book_id == bid : Bool) with
          | true => rfl
          | false => rw [hc] at hx; simp at hx
        simpa using this
      simp [hxbid, h2, Ne.symm h2]

/-- C7 witness: a fully returned book is deleted, a partially loaned one is
refused. -/
theorem delete_book_spec_witness :
    delete_book_core 1 true ⟨[⟨1, "A", "B", "", 5, 2⟩], [], [], 1, 1⟩ =
      (.conflictLoans, ⟨[⟨1, "A", "B", "", 5, 2⟩], [], [], 1, 1⟩) ∧
    findBook 1 (delete_book_core 1 true ⟨[⟨1, "A", "B", "", 5, 5⟩], [], [], 1, 1⟩).2.books =
      none := by
  constructor
  · exact (delete_book_spec 1 ⟨[⟨1, "A", "B", "", 5, 2⟩], [], [], 1, 1⟩
      ⟨1, "A", "B", "", 5, 2⟩ true (by decide)).1 (by decide)
  · exact ((delete_book_spec 1 ⟨[⟨1, "A", "B", "", 5, 5⟩], [], [], 1, 1⟩
      ⟨1, "A", "B", "", 5, 5⟩ true (by decide)).2 (by decide)).2.1

/-- C4: when the loan-closing UPDATE of return_book fails (the query
collaborator returns None and has rolled its own write back), the source
still runs the availability increment: on a concrete state the loan stays
open while the book availability rises from 1 to 2, a partial mutation the
specification forbids. -/
theorem return_close_failure_still_increments :
    return_book_queryFail false 5 7 1
        ⟨[⟨1, "Dune", "Herbert", "", 2, 1⟩], [⟨1, 7, 1, 0, 14, none⟩], [], 2, 1⟩ =
      (.success, ⟨[⟨1, "Dune", "Herbert", "", 2, 2⟩], [⟨1, 7, 1, 0, 14, none⟩], [], 2, 1⟩) := by
  decide

/-- C3 counterexample: a state satisfying the book invariant in which a book
with all copies nominally available still has an open loan row; returning
that loan pushes available_quantity to quantity + 1, so the invariant does
not survive return_book from an arbitrary invariant-satisfying state. -/
theorem return_book_can_exceed_quantity :
    BookInv ⟨[⟨1, "Dune", "Herbert", "", 1, 1⟩], [⟨1, 7, 1, 0, 14, none⟩], [], 2, 1⟩ ∧
    ¬ BookInv (return_book 5 7 1
      ⟨[⟨1, "Dune", "Herbert", "", 1, 1⟩], [⟨1, 7, 1, 0, 14, none⟩], [], 2, 1⟩).2 := by
  exact ⟨by decide, by decide⟩

theorem BookInv_of_books_eq (st st2 : State) (h : st2.books = st.books)
    (hInv : BookInv st) : BookInv st2 := by
  simp only [BookInv] at hInv ⊢
  rw [h]
  exact hInv

theorem BookInv_decrement (st : State) (hInv : BookInv st) (bid : Nat)
    (st2 : State) (h : st2.books = decrementAvail bid st.books) : BookInv st2 := by
  simp only [BookInv] at hInv ⊢
  rw [h]
  intro b hb
  simp only [decrementAvail, List.mem_map] at hb
  obtain ⟨x, hx, rfl⟩ := hb
  obtain ⟨h1, h2⟩ := hInv x hx
  by_cases hxc : x.book_id = bid ∧ 0 < x.available_quantity
  · rw [if_pos hxc]
    obtain ⟨-, h3⟩ := hxc
    refine ⟨?_, ?_⟩
    · show 0 ≤ x.available_quantity - 1
      omega
    · show x.available_quantity - 1 ≤ x.quantity
      omega
  · rw [if_neg hxc]
    exact ⟨h1, h2⟩

theorem BookInv_increment (st : State) (hInv : BookInv st) (bid : Nat)
    (hsafe : ∀ b ∈ st.books, b.book_id = bid → b.available_quantity < b.quantity)
    (st2 : State) (h : st2.books = incrementAvail bid st.books) : BookInv st2 := by
  simp only [BookInv] at hInv ⊢
  rw [h]
  intro b hb
  simp only [incrementAvail, List.mem_map] at hb
  obtain ⟨x, hx, rfl⟩ := hb
  obtain ⟨h1, h2⟩ := hInv x hx
  by_cases hxc : x.book_id = bid
  · rw [if_pos hxc]
    have h3 := hsafe x hx hxc
    refine ⟨?_, ?_⟩
    · show 0 ≤ x.available_quantity + 1
      omega
    · show x.available_quantity + 1 ≤ x.quantity
      omega
  · rw [if_neg hxc]
    exact ⟨h1, h2⟩

theorem BookInv_update_map (st : State) (hInv : BookInv st) (bid : Nat)
    (t a i : String) (nq na : Int) (hnq : 0 ≤ nq) (hna : 0 ≤ na) :
    BookInv { st with books := st.books.map (fun x =>
      if x.book_id = bid then
        { x with title := t, author := a, isbn := i, quantity := nq,
                 available_quantity := if na > nq then nq else na }
      else x) } := by
  simp only [BookInv] at hInv ⊢
  intro b hb
  simp only [List.mem_map] at hb
  obtain ⟨x, hx, rfl⟩ := hb
  by_cases hxid : x.book_id = bid
  · rw [if_pos hxid]
    refine ⟨?_, ?_⟩
    · show 0 ≤ (if na > nq then nq else na)
      split <;> omega
    · show (if na > nq then nq else na) ≤ nq
      split <;> omega
  · rw [if_neg hxid]
    exact hInv x hx

/-- C3 amended: starting from a state where every book satisfies
0 ≤ available_quantity ≤ quantity, the invariant still holds after every
add_book, update_book and borrow call; it holds after a return call under
the additional premise, forced by the counterexample, that every book of
the state carrying some open loan has available_quantity strictly below
quantity (which is exactly what the borrow bookkeeping maintains for
reachable states). -/
theorem book_invariant_amended (st : State) (hInv : BookInv st) :
    (∀ (title author isbn : String) (q : Int) (nb : Nat),
      BookInv (add_book_core title author isbn q nb st).2) ∧
    (∀ (bid : Nat) (tOpt aOpt iOpt : Option String) (qOpt : Option Int) (c : Bool),
      BookInv (update_book_core bid tOpt aOpt iOpt qOpt c st).2) ∧
    (∀ today uid bid, BookInv (borrow_book today uid bid st).2) ∧
    (∀ today uid lid,
      (∀ b ∈ st.books, bookHasActiveLoan b.book_id st.loans = true →
        b.available_quantity < b.quantity) →
      BookInv (return_book today uid lid st).2) := by
  refine ⟨?_, ?_, ?_, ?_⟩
  · intro t a i q nb
    by_cases hq : q ≤ 0
    · simpa [add_book_core, hq] using hInv
    · cases hf : st.books.find? (fun x => x.title == t && x.author == a) with
      | some x => simpa [add_book_core, hq, hf] using hInv
      | none =>
        have key : (add_book_core t a i q nb st).2 =
            { st with books := st.books ++ [⟨nb, t, a, i, q, q⟩] } := by
          simp [add_book_core, hq, hf]
        rw [key]
        simp only [BookInv] at hInv ⊢
        intro b hb
        rcases List.mem_append.mp hb with h | h
        · exact hInv b h
        · have hb2 : b = ⟨nb, t, a, i, q, q⟩ := by simpa using h
          subst hb2
          refine ⟨?_, ?_⟩
          · show (0 : Int) ≤ q
            omega
          · show (q : Int) ≤ q
            omega
  · intro bid tOpt aOpt iOpt qOpt c
    cases hf : findBook bid st.books with
    | none => simpa [update_book_core, hf] using hInv
    | some cb =>
      have hcbmem : cb ∈ st.books := List.mem_of_find?_eq_some hf
      obtain ⟨hcb1, hcb2⟩ := hInv cb hcbmem
      cases qOpt with
      | none =>
        by_cases hna : cb.available_quantity < 0
        · simpa [update_book_core, hf, hna] using hInv
        · cases c with
          | false => simpa [update_book_core, hf, hna] using hInv
          | true =>
            have key : (update_book_core bid tOpt aOpt iOpt none true st).2 =
                { st with books := st.books.map (fun x =>
                  if x.book_id = bid then
                    { x with title := tOpt.getD cb.title, author := aOpt.getD cb.author,
                             isbn := iOpt.getD cb.isbn, quantity := cb.quantity,
                             available_quantity :=
                               if cb.quantity < cb.available_quantity then cb.quantity
                               else cb.available_quantity }
                  else x) } := by
              simp [update_book_core, hf, hna]
            rw [key]
            exact BookInv_update_map st hInv bid _ _ _ cb.quantity cb.available_quantity
              (by omega) (by omega)
      | some q =>
        by_cases hqneg : q < 0
        · simpa [update_book_core, hf, hqneg] using hInv
        · by_cases hna : cb.available_quantity + (q - cb.quantity) < 0
          · simpa [update_book_core, hf, hqneg, hna] using hInv
          · cases c with
            | false => simpa [update_book_core, hf, hqneg, hna] using hInv
            | true =>
              have key : (update_book_core bid tOpt aOpt iOpt (some q) true st).2 =
                  { st with books := st.books.map (fun x =>
                    if x.book_id = bid then
                      { x with title := tOpt.getD cb.title, author := aOpt.getD cb.author,
                               isbn := iOpt.getD cb.isbn, quantity := q,
                               available_quantity :=
                                 if cb.available_quantity + (q - cb.quantity) > q then q
                                 else cb.available_quantity + (q - cb.quantity) }
                    else x) } := by
                simp [update_book_core, hf, hqneg, hna]
              rw [key]
              exact BookInv_update_map st hInv bid _ _ _ _ _ (by omega) (by omega)
  · intro today uid bid
    cases hf : findBook bid st.books with
    | none => simpa [borrow_book, hf] using hInv
    | some book =>
      by_cases h0 : book.available_quantity ≤ 0
      · simpa [borrow_book, hf, h0] using hInv
      · cases hact : hasActiveLoan uid bid st.loans with
        | true => simpa [borrow_book, hf, h0, hact] using hInv
        | false =>
          by_cases hz : st.nextLoanId = 0
          · refine BookInv_of_books_eq st _ ?_ hInv
            simp [borrow_book, hf, h0, hact, hz]
          · refine BookInv_decrement st hInv bid _ ?_
            simp [borrow_book, hf, h0, hact, hz]
  · intro today uid lid hsafe
    cases hf : findActiveLoan lid uid st.loans with
    | none => simpa [return_book, hf] using hInv
    | some loan =>
      have hmem : loan ∈ st.loans := List.mem_of_find?_eq_some hf
      have hpred := List.find?_some hf
      have hopen : loan.return_date.isNone = true := by
        simp only [Bool.and_eq_true] at hpred
        exact hpred.2
      refine BookInv_increment st hInv loan.book_id ?_ _ ?_
      · intro b hb hbid
        apply hsafe b hb
        simp only [bookHasActiveLoan, List.any_eq_true]
        refine ⟨loan, hmem, ?_⟩
        simp [hbid, hopen]
      · simp [return_book, hf]

/-- C3 amended witness: the four preserved cases applied at a concrete
invariant state with one open loan and spare copies. -/
theorem book_invariant_amended_witness :
    BookInv (return_book 3 7 1
      ⟨[⟨1, "Dune", "Herbert", "", 2, 1⟩], [⟨1, 7, 1, 0, 14, none⟩], [], 2, 1⟩).2 := by
  exact (book_invariant_amended
    ⟨[⟨1, "Dune", "Herbert", "", 2, 1⟩], [⟨1, 7, 1, 0, 14, none⟩], [], 2, 1⟩
    (by decide)).2.2.2 3 7 1 (by decide)

/-- C8 counterexample: a superadmin actor asking add_user for role
superadmin passes both only-superadmin guards but is then rejected by the
closed role whitelist, so the claimed reader-admin-superadmin choice for
superadmin actors does not hold; no user is created. -/
theorem add_user_superadmin_role_rejected :
    add_user_op ⟨1, "root", "superadmin", some ""⟩ "newsa" "pw" "superadmin" none
        ⟨[], [], [⟨1, "root", "superadmin", none, ""⟩], 1, 2⟩ =
      (.invalidRole, ⟨[], [], [⟨1, "root", "superadmin", none, ""⟩], 1, 2⟩) := by
  decide

/-- C8 amended: under a passing add_user permission gate, a request for role
superadmin is rejected for every actor (invalid role for a superadmin actor,
an only-superadmin error otherwise); a non-superadmin actor requesting admin
is rejected; roles outside the closed set are rejected as invalid; reader is
accepted for any actor and admin for a superadmin actor, inserting the new
user; every rejection leaves the state unchanged. -/
theorem add_user_roles_amended (actor : Session) (uname pw role_input : String)
    (phone : Option String) (st : State)
    (hgate : permissionGate actor.role actor.permissions "add_user" = true) :
    (pyLower role_input = "superadmin" →
      (add_user_op actor uname pw role_input phone st).2 = st ∧
      (add_user_op actor uname pw role_input phone st).1 ≠ .registered) ∧
    (actor.role ≠ "superadmin" → pyLower role_input = "admin" →
      add_user_op actor uname pw role_input phone st = (.superadminOnlyAdmin, st)) ∧
    (pyLower role_input ∉ (["reader", "admin", "superadmin"] : List String) →
      add_user_op actor uname pw role_input phone st = (.invalidRole, st)) ∧
    (pyLower role_input = "reader" ∨
        (actor.role = "superadmin" ∧ pyLower role_input = "admin") →
      uname ≠ "" → pw ≠ "" → (∀ u ∈ st.users, u.username ≠ uname) →
      (add_user_op actor uname pw role_input phone st).1 = .registered ∧
      (add_user_op actor uname pw role_input phone st).2.users =
        st.users ++ [⟨st.nextUserId, uname, pyLower role_input, phone, ""⟩]) := by
  have hperm : actor.role ≠ "superadmin" →
      has_permission actor.permissions "add_user" = true := by
    intro hnsa
    simp only [permissionGate, Bool.or_eq_true, beq_iff_eq] at hgate
    exact hgate.resolve_left hnsa
  refine ⟨?_, ?_, ?_, ?_⟩
  · intro hr
    by_cases hsa : actor.role = "superadmin"
    · constructor <;> simp [add_user_op, hsa, hr]
    · constructor <;> simp [add_user_op, hsa, hr, hperm hsa]
  · intro hnsa hr
    simp [add_user_op, hnsa, hr, hperm hnsa]
  · intro hnotin
    have h1 : pyLower role_input ≠ "reader" := fun h => hnotin (by simp [h])
    have h2 : pyLower role_input ≠ "admin" := fun h => hnotin (by simp [h])
    have h3 : pyLower role_input ≠ "superadmin" := fun h => hnotin (by simp [h])
    by_cases hsa : actor.role = "superadmin"
    · simp [add_user_op, hsa, h1, h2, h3]
    · simp [add_user_op, hsa, h1, h2, h3, hperm hsa]
  · intro hrole huname hpw huniq
    have hany : st.users.any (fun u => u.username == uname) = false := by
      simp only [List.any_eq_false]
      intro u hu
      simp [huniq u hu]
    rcases hrole with hr | ⟨hsa, hr⟩
    · by_cases hsa : actor.role = "superadmin"
      · constructor <;>
          simp [add_user_op, register_user, hsa, hr, huname, hpw, hany]
      · constructor <;>
          simp [add_user_op, register_user, hsa, hr, huname, hpw, hany, hperm hsa]
    · constructor <;>
        simp [add_user_op, register_user, hsa, hr, huname, hpw, hany]

/-- C8 witness: a superadmin actor successfully creating an admin account in
a concrete state. -/
theorem add_user_roles_amended_witness :
    (add_user_op ⟨1, "root", "superadmin", some ""⟩ "bob" "pw" "admin" none
      ⟨[], [], [⟨1, "root", "superadmin", none, ""⟩], 1, 2⟩).1 = .registered ∧
    (add_user_op ⟨1, "root", "superadmin", some ""⟩ "bob" "pw" "admin" none
      ⟨[], [], [⟨1, "root", "superadmin", none, ""⟩], 1, 2⟩).2.users =
      [⟨1, "root", "superadmin", none, ""⟩] ++ [⟨2, "bob", pyLower "admin", none, ""⟩] := by
  exact (add_user_roles_amended ⟨1, "root", "superadmin", some ""⟩ "bob" "pw" "admin"
    none ⟨[], [], [⟨1, "root", "superadmin", none, ""⟩], 1, 2⟩ (by decide)).2.2.2
    (Or.inr ⟨rfl, by decide⟩) (by decide) (by decide) (by decide)

/-- C9: the delete_user self-deletion guard is dead code because the target
row is fetched without its user_id column, so the comparison is always
None versus the session id; concretely a superadmin session deletes its own
account, while the active-loan conflict half of the claim does hold on a
target with an open loan. -/
theorem delete_user_self_deletion_bug :
    delete_user_op ⟨1, "root", "superadmin", some ""⟩ 1 true
        ⟨[], [], [⟨1, "root", "superadmin", none, ""⟩], 1, 2⟩ =
      (.deleted, ⟨[], [], [], 1, 2⟩) ∧
    delete_user_op ⟨1, "root", "superadmin", some ""⟩ 3 true
        ⟨[], [⟨1, 3, 1, 0, 14, none⟩],
          [⟨1, "root", "superadmin", none, ""⟩, ⟨3, "bob", "reader", none, ""⟩], 2, 4⟩ =
      (.activeLoanConflict,
        ⟨[], [⟨1, 3, 1, 0, 14, none⟩],
          [⟨1, "root", "superadmin", none, ""⟩, ⟨3, "bob", "reader", none, ""⟩], 2, 4⟩) := by
  exact ⟨by decide, by decide⟩

/-- C10: in update_user a blank username answer falls back to the SESSION
username (current_user), not to the target row, so whenever the actor and
target names differ, a confirmed update with a blank username renames the
target to the actor. -/
theorem update_user_blank_username (actor : Session) (target_id : Nat)
    (phone_in : String) (st : State) (target : User)
    (hfind : st.users.find? (fun u => u.user_id == target_id) = some target)
    (hgate : permissionGate actor.role actor.permissions "update_user" = true)
    (hhier : (target.role = "superadmin" ∨ target.role = "admin") →
      actor.role = "superadmin")
    (hself : target.user_id = actor.user_id → actor.role = "superadmin")
    (hrole : actor.role = "superadmin" ∨ target.role = "reader")
    (hdiff : actor.username ≠ target.username) :
    (update_user_op actor target_id "" "" (some phone_in) true st).1 = .updated ∧
    ∀ u ∈ (update_user_op actor target_id "" "" (some phone_in) true st).2.users,
      u.user_id = target_id →
        u.username = actor.username ∧ u.username ≠ target.username := by
  have main : (update_user_op actor target_id "" "" (some phone_in) true st).1 = .updated ∧
      (update_user_op actor target_id "" "" (some phone_in) true st).2.users =
        st.users.map (fun u =>
          if u.user_id = target_id then
            { u with username := actor.username, role := target.role,
                     phone := some phone_in, permissions := target.permissions }
          else u) := by
    by_cases hsa : actor.role = "superadmin"
    · constructor <;> simp [update_user_op, hfind, hsa]
    · have htr : target.role = "reader" := hrole.resolve_left hsa
      have hne : target.user_id ≠ actor.user_id := fun h => hsa (hself h)
      have hperm : has_permission actor.permissions "update_user" = true := by
        simp only [permissionGate, Bool.or_eq_true, beq_iff_eq] at hgate
        exact hgate.resolve_left hsa
      constructor <;> simp [update_user_op, hfind, hsa, htr, hne, hperm]
  refine ⟨main.1, ?_⟩
  rw [main.2]
  intro u hu hid
  simp only [List.mem_map] at hu
  obtain ⟨x, hx, rfl⟩ := hu
  by_cases hxid : x.user_id = target_id
  · rw [if_pos hxid]
    exact ⟨rfl, hdiff⟩
  · rw [if_neg hxid] at hid ⊢
    exact absurd hid hxid

/-- C10 witness: a concrete superadmin session renaming a reader by leaving
the username prompt blank. -/
theorem update_user_blank_username_witness :
    (update_user_op ⟨1, "root", "superadmin", some ""⟩ 3 "" "" (some "") true
      ⟨[], [], [⟨1, "root", "superadmin", none, ""⟩, ⟨3, "bob", "reader", none, ""⟩],
        1, 4⟩).1 = .updated := by
  exact (update_user_blank_username ⟨1, "root", "superadmin", some ""⟩ 3 ""
    ⟨[], [], [⟨1, "root", "superadmin", none, ""⟩, ⟨3, "bob", "reader", none, ""⟩], 1, 4⟩
    ⟨3, "bob", "reader", none, ""⟩ (by decide) (by decide) (by decide) (by decide)
    (by decide) (by decide)).1

theorem inc_dec_avail (bid : Nat) (bs : List Book)
    (h : ∀ x ∈ bs, x.book_id = bid → 0 < x.available_quantity) :
    incrementAvail bid (decrementAvail bid bs) = bs := by
  simp only [incrementAvail, decrementAvail, List.map_map]
  have hpt : ∀ x ∈ bs,
      ((fun b => if b.book_id = bid then
          { b with available_quantity := b.available_quantity + 1 } else b) ∘
        (fun b => if b.book_id = bid ∧ 0 < b.available_quantity then
          { b with available_quantity := b.available_quantity - 1 } else b)) x = id x := by
    intro x hx
    have hxq := h x hx
    obtain ⟨xid, xt, xa, xi, xq, xav⟩ := x
    simp only [Function.comp_apply, id_eq]
    by_cases hb : xid = bid
    · have hpos : 0 < xav := hxq hb
      simp [hb, hpos]
      try omega
    · simp [hb]
  rw [List.map_congr_left hpt, List.map_id]

theorem closeLoan_append (today lid : Nat) (ls : List Loan) (fr : Loan)
    (hfr : ∀ l ∈ ls, l.loan_id ≠ lid) (hid : fr.loan_id = lid) :
    closeLoan today lid (ls ++ [fr]) = ls ++ [{ fr with return_date := some today }] := by
  simp only [closeLoan, List.map_append, List.map_cons, List.map_nil]
  have h1 : ls.map (fun l =>
      if l.loan_id = lid then { l with return_date := some today } else l) = ls := by
    have hpt : ∀ l ∈ ls,
        (if l.loan_id = lid then { l with return_date := some today } else l) = id l := by
      intro l hl
      rw [if_neg (hfr l hl), id_eq]
    rw [List.map_congr_left hpt, List.map_id]
  rw [h1, if_pos hid]

theorem roundtrip_eq (today uid bid : Nat) (b : Book) (st : State)
    (h : RoundtripReady uid bid b st) :
    roundtrip today uid bid st =
      { books := st.books,
        loans := st.loans ++ [⟨st.nextLoanId, uid, bid, today, today + 14, some today⟩],
        users := st.users,
        nextLoanId := st.nextLoanId + 1,
        nextUserId := st.nextUserId } := by
  obtain ⟨hb, ha, hnl, hfr, hnz, huniq⟩ := h
  have hne : ¬ b.available_quantity ≤ 0 := by omega
  have hborrow : borrow_book today uid bid st =
      (.success st.nextLoanId,
        { books := decrementAvail bid st.books,
          loans := st.loans ++ [⟨st.nextLoanId, uid, bid, today, today + 14, none⟩],
          users := st.users,
          nextLoanId := st.nextLoanId + 1,
          nextUserId := st.nextUserId }) := by
    simp [borrow_book, hb, hne, hnl, hnz]
  have hfind : findActiveLoan st.nextLoanId uid
      (st.loans ++ [⟨st.nextLoanId, uid, bid, today, today + 14, none⟩]) =
      some ⟨st.nextLoanId, uid, bid, today, today + 14, none⟩ := by
    simp only [findActiveLoan, List.find?_append]
    have hleft : st.loans.find? (fun l =>
        l.loan_id == st.nextLoanId && l.user_id == uid && l.return_date.isNone) = none := by
      rw [List.find?_eq_none]
      intro l hl
      have hlt := hfr l hl
      simp [Nat.ne_of_lt hlt]
    rw [hleft]
    simp
  have hincdec : incrementAvail bid (decrementAvail bid st.books) = st.books :=
    inc_dec_avail bid st.books (fun x hx hxb => by rw [huniq x hx hxb]; exact ha)
  have hclose : closeLoan today st.nextLoanId
      (st.loans ++ [⟨st.nextLoanId, uid, bid, today, today + 14, none⟩]) =
      st.loans ++ [⟨st.nextLoanId, uid, bid, today, today + 14, some today⟩] := by
    have := closeLoan_append today st.nextLoanId st.loans
      ⟨st.nextLoanId, uid, bid, today, today + 14, none⟩
      (fun l hl => Nat.ne_of_lt (hfr l hl)) rfl
    exact this
  simp only [roundtrip, hborrow, return_book, hfind, hclose, hincdec]

theorem roundtrip_step (today uid bid : Nat) (b : Book) (st : State)
    (h : RoundtripReady uid bid b st) :
    (roundtrip today uid bid st).books = st.books ∧
    RoundtripReady uid bid b (roundtrip today uid bid st) := by
  have hcopy := h
  obtain ⟨hb, ha, hnl, hfr, hnz, huniq⟩ := hcopy
  rw [roundtrip_eq today uid bid b st h]
  have hnl2 : hasActiveLoan uid bid
      (st.loans ++ [⟨st.nextLoanId, uid, bid, today, today + 14, some today⟩]) = false := by
    simp only [hasActiveLoan, List.any_append, List.any_cons, List.any_nil] at hnl ⊢
    simp [hnl]
  refine ⟨rfl, hb, ha, hnl2, ?_, Nat.succ_ne_zero _, huniq⟩
  intro l hl
  rcases List.mem_append.mp hl with hmem | hmem
  · exact Nat.lt_succ_of_lt (hfr l hmem)
  · have : l = ⟨st.nextLoanId, uid, bid, today, today + 14, some today⟩ := by
      simpa using hmem
    rw [this]
    exact Nat.lt_succ_self _

/-- C5: in a state where borrow succeeds for a user and book (a copy is
available, no open loan for the pair, fresh auto-increment loan ids),
borrowing and then returning the created loan restores the book table
exactly, so the book keeps its pre-borrow quantity and available quantity,
and the borrow-return pair can be repeated any number of times with the same
outcome. -/
theorem borrow_return_roundtrip (today uid bid : Nat) (st : State) (b : Book)
    (hb : findBook bid st.books = some b)
    (ha : 0 < b.available_quantity)
    (hnl : hasActiveLoan uid bid st.loans = false)
    (hfr : ∀ l ∈ st.loans, l.loan_id < st.nextLoanId)
    (hnz : st.nextLoanId ≠ 0)
    (huniq : ∀ b2 ∈ st.books, b2.book_id = bid → b2 = b) :
    (borrow_book today uid bid st).1 = .success st.nextLoanId ∧
    (∀ N : Nat, (Nat.iterate (roundtrip today uid bid) N st).books = st.books) ∧
    (∀ N : Nat, findBook bid (Nat.iterate (roundtrip today uid bid) N st).books = some b) := by
  have hready : RoundtripReady uid bid b st := ⟨hb, ha, hnl, hfr, hnz, huniq⟩
  have hiter : ∀ N : Nat,
      RoundtripReady uid bid b (Nat.iterate (roundtrip today uid bid) N st) ∧
      (Nat.iterate (roundtrip today uid bid) N st).books = st.books := by
    intro N
    induction N with
    | zero => exact ⟨hready, rfl⟩
    | succ n ih =>
      have step := roundtrip_step today uid bid b _ ih.1
      rw [Function.iterate_succ_apply']
      exact ⟨step.2, by rw [step.1, ih.2]⟩
  refine ⟨?_, fun N => (hiter N).2, fun N => by rw [(hiter N).2]; exact hb⟩
  have hne : ¬ b.available_quantity ≤ 0 := by omega
  simp [borrow_book, hb, hne, hnl, hnz]

/-- C5 witness: three borrow-return round trips on a concrete two-copy book
leave the book table unchanged. -/
theorem borrow_return_roundtrip_witness :
    (Nat.iterate (roundtrip 0 7 1) 3
      ⟨[⟨1, "Dune", "Herbert", "", 2, 2⟩], [], [], 1, 1⟩).books =
      [⟨1, "Dune", "Herbert", "", 2, 2⟩] := by
  exact (borrow_return_roundtrip 0 7 1 ⟨[⟨1, "Dune", "Herbert", "", 2, 2⟩], [], [], 1, 1⟩
    ⟨1, "Dune", "Herbert", "", 2, 2⟩ (by decide) (by decide) (by decide) (by decide)
    (by decide) (by decide)).2.1 3

end LibSys
